import Mathlib

/-!
# Verification of the inventory ledger core (`inventory_system.py`)

A shallow embedding of the transaction-driven inventory ledger of the
repository: the `inventory_transactions` append-only relation (the ledger),
the `inventory` relation (the per-`(product, location)` stock projection),
the static `transaction_types` registry, and the operations of
`InventoryManager` that read and write them:
`record_transaction`, `get_product_quantity`, `update_inventory_quantity`
and `get_transaction_history`.

Database rows become Lean structures; the SQLite connection with its
explicit `BEGIN TRANSACTION` / `commit` / `rollback` protocol inside
`record_transaction` becomes a `Conn` carrying the last committed state and
the current (uncommitted) state; `datetime.now()` becomes an explicit `now`
parameter; timestamps are modelled as naturals (the source stores
`"%Y-%m-%d %H:%M:%S"` strings whose lexicographic order is chronological);
storage failures at the individual steps of the atomic unit are injected
through a `Fault` parameter; a Python exception becomes `Except.error`.
-/

deriving instance DecidableEq for Except

namespace InventorySystem

/-- A row of the static `transaction_types` table: id, name and the
`affects_inventory` effect sign. -/
structure TransactionTypeRow where
  transaction_type_id : Nat
  name : String
  affects_inventory : Int
deriving DecidableEq

/-- The `InventoryTransaction` dataclass of `inventory_system.py`: the
candidate ledger entry a caller passes to `record_transaction`. -/
structure InventoryTransaction where
  product_id : Nat
  location_id : Nat
  transaction_type_id : Nat
  quantity : Int
  reference_number : Option String := none
  notes : Option String := none
  created_by : Option String := none
  transaction_id : Option Nat := none
  transaction_date : Option Nat := none
deriving DecidableEq

/-- A persisted row of the `inventory_transactions` table (the ledger). -/
structure LedgerRow where
  transaction_id : Nat
  product_id : Nat
  location_id : Nat
  transaction_type_id : Nat
  quantity : Int
  transaction_date : Nat
  reference_number : Option String
  notes : Option String
  created_by : Option String
deriving DecidableEq

/-- A persisted row of the `inventory` table (the stock-level projection). -/
structure InventoryRow where
  inventory_id : Nat
  product_id : Nat
  location_id : Nat
  quantity : Int
  last_counted_at : Option Nat
deriving DecidableEq

/-- A row of the `products` master-data table (only the columns the
inventory queries join against). -/
structure ProductRow where
  product_id : Nat
  name : String
  sku : String
deriving DecidableEq

/-- A row of the `locations` master-data table. -/
structure LocationRow where
  location_id : Nat
  name : String
deriving DecidableEq

/-- The durable database state: the three relations the inventory core
touches plus the master-data tables joined for reporting.  `rowid`
assignment by SQLite is modelled by the two counters. -/
structure DBState where
  transaction_types : List TransactionTypeRow
  transactions : List LedgerRow
  inventory : List InventoryRow
  products : List ProductRow
  locations : List LocationRow
  next_transaction_id : Nat
  next_inventory_id : Nat
deriving DecidableEq

/-- Errors surfaced to callers: `ValueError` for an unknown transaction
type, the schema-level quantity check, the schema-level uniqueness of an
inventory `(product_id, location_id)` pair, and an injected storage
failure. -/
inductive DBError where
  | invalidTransactionType (id : Nat)
  | validationError
  | uniqueConstraint
  | storageFailure
deriving DecidableEq

/-- Fault-injection points inside `record_transaction`: the four durable
steps of its unit of work at which the underlying storage layer may raise. -/
inductive Fault where
  | none
  | atLedgerInsert
  | atProjectionRead
  | atProjectionWrite
  | atCommit
deriving DecidableEq

/-- The SQLite connection during `record_transaction`: `committed` is the
durable state as of the last `commit`, `current` is the state including the
statements executed inside the open unit of work. -/
structure Conn where
  committed : DBState
  current : DBState
deriving DecidableEq

/-- `conn.commit()`: the uncommitted statements become durable. -/
def commit (c : Conn) : Conn := ⟨c.current, c.current⟩

/-- `conn.rollback()`: the uncommitted statements are discarded. -/
def rollback (c : Conn) : Conn := ⟨c.committed, c.committed⟩

/-- The boolean row predicate `product_id = ? AND location_id = ?` used by
the inventory SELECT/UPDATE statements. -/
def pairMatch (pid lid : Nat) (r : InventoryRow) : Bool :=
  r.product_id == pid && r.location_id == lid

/-- `SELECT affects_inventory FROM transaction_types WHERE
transaction_type_id = ?` (record_transaction, lines 497-505). -/
def lookupType (s : DBState) (id : Nat) : Option Int :=
  (s.transaction_types.find? (fun tt => tt.transaction_type_id == id)).map
    (fun tt => tt.affects_inventory)

/-- `SELECT inventory_id, quantity FROM inventory WHERE product_id = ? AND
location_id = ?` with `fetchone()` (record_transaction, lines 534-538). -/
def findInventory (s : DBState) (pid lid : Nat) : Option InventoryRow :=
  s.inventory.find? (pairMatch pid lid)

/-- `InventoryManager.get_product_quantity` (lines 440-448): SELECT the
quantity for the pair, returning `results[0]["quantity"] if results else 0`. -/
def get_product_quantity (s : DBState) (pid lid : Nat) : Int :=
  match s.inventory.filter (pairMatch pid lid) with
  | [] => 0
  | r :: _ => r.quantity

/-- `INSERT INTO inventory_transactions (...) VALUES (...)`.

Modelled from the spec for the part living in `inventory_schema.sql`, which
is not under `src/`: the ledger append "fails with `ValidationError` if
`quantity <= 0`" (spec §4.2, "Invariant: `quantity > 0` always"), i.e. the
schema carries a positivity constraint on the ledger quantity column.  The
row layout and the monotonically increasing id follow the INSERT statement
of `record_transaction` (lines 511-526). -/
def insertTransaction (s : DBState) (t : InventoryTransaction) :
    Except DBError (DBState × Nat) :=
  if t.quantity ≤ 0 then
    Except.error DBError.validationError
  else
    Except.ok
      ({ s with
          transactions := s.transactions ++
            [{ transaction_id := s.next_transaction_id
               product_id := t.product_id
               location_id := t.location_id
               transaction_type_id := t.transaction_type_id
               quantity := t.quantity
               transaction_date := t.transaction_date.getD 0
               reference_number := t.reference_number
               notes := t.notes
               created_by := t.created_by }]
          next_transaction_id := s.next_transaction_id + 1 },
        s.next_transaction_id)

/-- `INSERT INTO inventory (product_id, location_id, quantity[, last_counted_at])`.

Modelled from the spec for the part living in `inventory_schema.sql`, which
is not under `src/`: the projection is "keyed by `(product_id, location_id)`,
unique per pair" (spec §3), so inserting a second row for an existing pair
fails on the uniqueness constraint.  The appended row itself follows the
INSERT statements of `record_transaction` (lines 556-562) and
`update_inventory_quantity` (lines 474-478). -/
def insertInventory (s : DBState) (pid lid : Nat) (qty : Int)
    (lc : Option Nat) : Except DBError DBState :=
  if (s.inventory.find? (pairMatch pid lid)).isSome then
    Except.error DBError.uniqueConstraint
  else
    Except.ok
      { s with
        inventory := s.inventory ++
          [{ inventory_id := s.next_inventory_id
             product_id := pid
             location_id := lid
             quantity := qty
             last_counted_at := lc }]
        next_inventory_id := s.next_inventory_id + 1 }

/-- `UPDATE inventory SET quantity = ?, updated_at = CURRENT_TIMESTAMP WHERE
product_id = ? AND location_id = ?` (record_transaction, lines 546-553). -/
def updateInventoryQty (s : DBState) (pid lid : Nat) (new_quantity : Int) :
    DBState :=
  { s with
    inventory := s.inventory.map (fun r =>
      if pairMatch pid lid r then { r with quantity := new_quantity } else r) }

/-- `InventoryManager.update_inventory_quantity` (lines 450-485): the manual
recount path.  It reads `get_product_quantity`, defaults `counted_at` to
`now`, and — exactly as the source does — branches on
`current_quantity > 0` between the UPDATE (which also stamps
`last_counted_at`) and the INSERT. -/
def update_inventory_quantity (s : DBState) (pid lid : Nat)
    (new_quantity : Int) (counted_at : Option Nat) (now : Nat) :
    Except DBError DBState :=
  let current_quantity := get_product_quantity s pid lid
  let counted := counted_at.getD now
  if current_quantity > 0 then
    Except.ok
      { s with
        inventory := s.inventory.map (fun r =>
          if pairMatch pid lid r then
            { r with quantity := new_quantity, last_counted_at := some counted }
          else r) }
  else
    insertInventory s pid lid new_quantity (some counted)

/-- The projection-update block of `record_transaction` (lines 528-562): if
`affects_inventory != 0`, compute `inventory_change`, read the existing row
for the pair, and either UPDATE it or INSERT a fresh one.  `fault` injects a
storage failure at the read or at the write. -/
def applyProjection (s : DBState) (t : InventoryTransaction)
    (affects_inventory : Int) (fault : Fault) : Except DBError DBState :=
  if affects_inventory ≠ 0 then
    if fault = Fault.atProjectionRead then Except.error DBError.storageFailure
    else
      let inventory_change := t.quantity * affects_inventory
      match findInventory s t.product_id t.location_id with
      | some inventory_record =>
        if fault = Fault.atProjectionWrite then
          Except.error DBError.storageFailure
        else
          Except.ok (updateInventoryQty s t.product_id t.location_id
            (inventory_record.quantity + inventory_change))
      | none =>
        if fault = Fault.atProjectionWrite then
          Except.error DBError.storageFailure
        else
          insertInventory s t.product_id t.location_id inventory_change none
  else Except.ok s

/-- `InventoryManager.record_transaction` (lines 487-576).  Returns the
connection after the call (committed on success, rolled back on any
exception), the caller's `InventoryTransaction` object as the call leaves it
(the source assigns `transaction.transaction_date` in place), and either the
new transaction id or the propagated error. -/
def record_transaction (c : Conn) (t0 : InventoryTransaction) (now : Nat)
    (fault : Fault) : Conn × InventoryTransaction × Except DBError Nat :=
  match lookupType c.current t0.transaction_type_id with
  | none =>
    (rollback c, t0,
      Except.error (DBError.invalidTransactionType t0.transaction_type_id))
  | some affects_inventory =>
    let t := if t0.transaction_date.isNone then
        { t0 with transaction_date := some now } else t0
    if fault = Fault.atLedgerInsert then
      (rollback c, t, Except.error DBError.storageFailure)
    else
      match insertTransaction c.current t with
      | Except.error e => (rollback c, t, Except.error e)
      | Except.ok (cur1, transaction_id) =>
        let c1 : Conn := ⟨c.committed, cur1⟩
        match applyProjection cur1 t affects_inventory fault with
        | Except.error e => (rollback c1, t, Except.error e)
        | Except.ok cur2 =>
          let c2 : Conn := ⟨c.committed, cur2⟩
          if fault = Fault.atCommit then
            (rollback c2, t, Except.error DBError.storageFailure)
          else
            (commit c2, t, Except.ok transaction_id)

/-- A `record_transaction` call on a quiescent connection with no injected
fault: the normal mode of operation. -/
def runRecord (s : DBState) (t : InventoryTransaction) (now : Nat) :
    Conn × InventoryTransaction × Except DBError Nat :=
  record_transaction ⟨s, s⟩ t now Fault.none

/-- A row of the `get_transaction_history` result set: the ledger row joined
with the product, location and transaction-type names (lines 584-589). -/
structure HistoryRow where
  transaction_id : Nat
  product_id : Nat
  location_id : Nat
  transaction_type_id : Nat
  quantity : Int
  transaction_date : Nat
  reference_number : Option String
  notes : Option String
  created_by : Option String
  product_name : String
  sku : String
  location_name : String
  transaction_type : String
deriving DecidableEq

/-- The three inner JOINs of `get_transaction_history`: a ledger row joins
with the first matching product, location and transaction-type rows, and is
dropped when any of the keys does not resolve. -/
def joinHistory (s : DBState) : List HistoryRow :=
  s.transactions.filterMap (fun t =>
    match s.products.find? (fun p => p.product_id == t.product_id),
        s.locations.find? (fun l => l.location_id == t.location_id),
        s.transaction_types.find?
          (fun tt => tt.transaction_type_id == t.transaction_type_id) with
    | some p, some l, some tt =>
      some { transaction_id := t.transaction_id
             product_id := t.product_id
             location_id := t.location_id
             transaction_type_id := t.transaction_type_id
             quantity := t.quantity
             transaction_date := t.transaction_date
             reference_number := t.reference_number
             notes := t.notes
             created_by := t.created_by
             product_name := p.name
             sku := p.sku
             location_name := l.name
             transaction_type := tt.name }
    | _, _, _ => Option.none)

/-- The optional WHERE clauses of `get_transaction_history` (lines 594-608):
equality on product and location, and the inclusive date range. -/
def matchesFilters (product_id location_id start_date end_date : Option Nat)
    (r : HistoryRow) : Bool :=
  (match product_id with | some p => r.product_id == p | none => true) &&
  (match location_id with | some l => r.location_id == l | none => true) &&
  (match start_date with | some d => d ≤ r.transaction_date | none => true) &&
  (match end_date with | some d => r.transaction_date ≤ d | none => true)

/-- `ORDER BY t.transaction_date DESC`: row `a` may precede row `b` when
`b`'s date is at most `a`'s. -/
def dateDesc (a b : HistoryRow) : Prop :=
  b.transaction_date ≤ a.transaction_date

instance : DecidableRel dateDesc := fun a b =>
  inferInstanceAs (Decidable (b.transaction_date ≤ a.transaction_date))

instance : IsTotal HistoryRow dateDesc :=
  ⟨fun a b => Nat.le_total b.transaction_date a.transaction_date⟩

instance : IsTrans HistoryRow dateDesc :=
  ⟨fun _ _ _ h1 h2 => Nat.le_trans h2 h1⟩

/-- `InventoryManager.get_transaction_history` (lines 578-615): join, apply
the optional filters, `ORDER BY t.transaction_date DESC`, `LIMIT limit`. -/
def get_transaction_history (s : DBState)
    (product_id location_id start_date end_date : Option Nat)
    (limit : Nat) : List HistoryRow :=
  (List.insertionSort dateDesc
    ((joinHistory s).filter
      (matchesFilters product_id location_id start_date end_date))).take limit

/-- `get_transaction_history` as called without a `limit` argument: the
Python signature declares `limit: int = 100`. -/
def get_transaction_history_default (s : DBState)
    (product_id location_id start_date end_date : Option Nat) :
    List HistoryRow :=
  get_transaction_history s product_id location_id start_date end_date 100

/-! ## Derived descriptions of a successful `record_transaction` run

The following definitions are not part of the embedding; they are closed
forms that the theorems below prove equal to what `record_transaction`
computes. -/

/-- The in-place timestamp assignment of lines 508-509: the caller's object
after the call. -/
def setDate (t : InventoryTransaction) (now : Nat) : InventoryTransaction :=
  if t.transaction_date.isNone then { t with transaction_date := some now }
  else t

/-- The ledger row a successful call starting from state `s` appends. -/
def newLedgerRow (s : DBState) (t : InventoryTransaction) (now : Nat) :
    LedgerRow :=
  { transaction_id := s.next_transaction_id
    product_id := t.product_id
    location_id := t.location_id
    transaction_type_id := t.transaction_type_id
    quantity := t.quantity
    transaction_date := t.transaction_date.getD now
    reference_number := t.reference_number
    notes := t.notes
    created_by := t.created_by }

/-- The state after the ledger append of a successful call. -/
def ledgerAppend (s : DBState) (t : InventoryTransaction) (now : Nat) :
    DBState :=
  { s with
    transactions := s.transactions ++ [newLedgerRow s t now]
    next_transaction_id := s.next_transaction_id + 1 }

/-- The committed state after a successful `record_transaction` call whose
transaction type has effect `a`. -/
def postState (s : DBState) (t : InventoryTransaction) (now : Nat)
    (a : Int) : DBState :=
  let s1 := ledgerAppend s t now
  if a ≠ 0 then
    match findInventory s t.product_id t.location_id with
    | some r =>
      { s1 with
        inventory := s1.inventory.map (fun x =>
          if pairMatch t.product_id t.location_id x then
            { x with quantity := r.quantity + t.quantity * a }
          else x) }
    | none =>
      { s1 with
        inventory := s1.inventory ++
          [{ inventory_id := s1.next_inventory_id
             product_id := t.product_id
             location_id := t.location_id
             quantity := t.quantity * a
             last_counted_at := none }]
        next_inventory_id := s1.next_inventory_id + 1 }
  else s1

/-- Replay of a sequence of `record_transaction` calls (each with its own
clock reading), demanding that every call succeed. -/
def runAll (s : DBState) : List (InventoryTransaction × Nat) → Option DBState
  | [] => some s
  | (t, now) :: rest =>
    match runRecord s t now with
    | (c, _, Except.ok _) => runAll c.committed rest
    | (_, _, Except.error _) => Option.none

/-- The effect sign the registry of `s` assigns to a transaction type. -/
def effectOf (s : DBState) (id : Nat) : Int :=
  (lookupType s id).getD 0

/-- The specification fold: the signed contributions of the calls touching
the pair `(pid, lid)`, summed. -/
def foldSpec (s0 : DBState) (pid lid : Nat)
    (calls : List (InventoryTransaction × Nat)) : Int :=
  (calls.map (fun c =>
    if pid = c.1.product_id ∧ lid = c.1.location_id then
      c.1.quantity * effectOf s0 c.1.transaction_type_id
    else 0)).sum

/-- The schema invariant on the projection relation: no two rows share a
`(product_id, location_id)` pair. -/
def uniquePairs (l : List InventoryRow) : Prop :=
  List.Pairwise (fun r1 r2 =>
    r1.product_id ≠ r2.product_id ∨ r1.location_id ≠ r2.location_id) l

/-! ## Concrete states for witnesses -/

/-- The eight seeded transaction types of the registry (spec §4.1). -/
def registrySeed : List TransactionTypeRow :=
  [⟨1, "Purchase", 1⟩, ⟨2, "Sale", -1⟩, ⟨3, "Adjustment", 0⟩,
   ⟨4, "Transfer In", 1⟩, ⟨5, "Transfer Out", -1⟩, ⟨6, "Return In", 1⟩,
   ⟨7, "Return Out", -1⟩, ⟨8, "Write Off", -1⟩]

/-- An empty store: seeded registry, two locations, one product, no ledger
entries, no stock rows. -/
def emptyStore : DBState :=
  { transaction_types := registrySeed
    transactions := []
    inventory := []
    products := [⟨1, "Laptop Computer", "TECH-001"⟩]
    locations := [⟨1, "Main Warehouse"⟩, ⟨2, "Retail Store"⟩]
    next_transaction_id := 1
    next_inventory_id := 1 }

/-- A store whose projection has a row for product 1 at location 1 with
quantity zero (for instance after a purchase of 4 and a sale of 4). -/
def zeroRowStore : DBState :=
  { emptyStore with inventory := [⟨1, 1, 1, 0, some 10⟩], next_inventory_id := 2 }

/-- A sample candidate transaction: purchase of 10 units of product 1 at
location 1, with no caller-supplied timestamp. -/
def purchase10 : InventoryTransaction :=
  { product_id := 1, location_id := 1, transaction_type_id := 1, quantity := 10 }

/-- A sale of 3 units of product 1 at location 1. -/
def sale3 : InventoryTransaction :=
  { product_id := 1, location_id := 1, transaction_type_id := 2, quantity := 3 }

/-- A Transfer Out of 3 units of product 1 at location 1. -/
def transferOut3 : InventoryTransaction :=
  { product_id := 1, location_id := 1, transaction_type_id := 5, quantity := 3 }

/-- A Transfer In of 3 units of product 1 at location 2. -/
def transferIn3 : InventoryTransaction :=
  { product_id := 1, location_id := 2, transaction_type_id := 4, quantity := 3 }

/-- A sample call sequence: purchase 10, then sell 3, at `(1, 1)`. -/
def demoCalls : List (InventoryTransaction × Nat) :=
  [(purchase10, 7), (sale3, 8)]

/-- The store after replaying `demoCalls` from the empty store. -/
def demoStore : DBState :=
  (runAll emptyStore demoCalls).getD emptyStore

/-! ## Helper lemmas -/

theorem pairMatch_iff {pid lid : Nat} {r : InventoryRow} :
    pairMatch pid lid r = true ↔ r.product_id = pid ∧ r.location_id = lid := by
  simp [pairMatch]

theorem find?_eq_head?_filter {α : Type} (p : α → Bool) :
    ∀ xs : List α, xs.find? p = (xs.filter p).head?
  | [] => rfl
  | x :: xs => by
    by_cases h : p x
    · rw [List.find?_cons_of_pos _ h, List.filter_cons, if_pos h]
      rfl
    · rw [List.find?_cons_of_neg _ h, List.filter_cons, if_neg h,
        find?_eq_head?_filter p xs]

theorem get_product_quantity_eq_find (s : DBState) (pid lid : Nat) :
    get_product_quantity s pid lid =
      match findInventory s pid lid with
      | some r => r.quantity
      | none => 0 := by
  unfold get_product_quantity findInventory
  rw [find?_eq_head?_filter]
  cases s.inventory.filter (pairMatch pid lid) <;> rfl

theorem lookupType_congr {s s' : DBState}
    (h : s.transaction_types = s'.transaction_types) (id : Nat) :
    lookupType s id = lookupType s' id := by
  simp [lookupType, h]

theorem rollback_quiescent (s : DBState) : rollback ⟨s, s⟩ = ⟨s, s⟩ := rfl

theorem setDate_quantity (t : InventoryTransaction) (now : Nat) :
    (setDate t now).quantity = t.quantity := by
  unfold setDate; split <;> rfl

theorem setDate_date (t : InventoryTransaction) (now : Nat) :
    (setDate t now).transaction_date = some (t.transaction_date.getD now) := by
  unfold setDate
  cases h : t.transaction_date <;> simp [h]

theorem insertTransaction_setDate (s : DBState) (t : InventoryTransaction)
    (now : Nat) (hq : 0 < t.quantity) :
    insertTransaction s (setDate t now) =
      Except.ok (ledgerAppend s t now, s.next_transaction_id) := by
  unfold insertTransaction
  rw [setDate_quantity, if_neg (not_le.mpr hq)]
  unfold ledgerAppend newLedgerRow
  cases h : t.transaction_date <;> simp [setDate, h]

theorem findInventory_ledgerAppend (s : DBState) (t : InventoryTransaction)
    (now : Nat) (pid lid : Nat) :
    findInventory (ledgerAppend s t now) pid lid = findInventory s pid lid :=
  rfl

theorem applyProjection_ok (s : DBState) (t : InventoryTransaction)
    (now : Nat) (a : Int) :
    applyProjection (ledgerAppend s t now) (setDate t now) a Fault.none =
      Except.ok (postState s t now a) := by
  unfold applyProjection postState
  by_cases ha : a = 0
  · simp [ha]
  · rw [if_pos ha, if_pos ha, if_neg (by decide : ¬ (Fault.none = Fault.atProjectionRead))]
    have hpid : (setDate t now).product_id = t.product_id := by
      unfold setDate; split <;> rfl
    have hlid : (setDate t now).location_id = t.location_id := by
      unfold setDate; split <;> rfl
    rw [hpid, hlid, setDate_quantity, findInventory_ledgerAppend]
    cases h : findInventory s t.product_id t.location_id with
    | some r =>
      simp only [if_neg (by decide : ¬ (Fault.none = Fault.atProjectionWrite))]
      rfl
    | none =>
      simp only [if_neg (by decide : ¬ (Fault.none = Fault.atProjectionWrite))]
      unfold insertInventory
      unfold findInventory at h
      rw [show (ledgerAppend s t now).inventory = s.inventory from rfl, h]
      rfl

theorem record_transaction_ok (s : DBState) (t : InventoryTransaction)
    (now : Nat) {a : Int}
    (htype : lookupType s t.transaction_type_id = some a)
    (hq : 0 < t.quantity) :
    record_transaction ⟨s, s⟩ t now Fault.none =
      (⟨postState s t now a, postState s t now a⟩, setDate t now,
        Except.ok s.next_transaction_id) := by
  unfold record_transaction
  rw [show (⟨s, s⟩ : Conn).current = s from rfl, htype]
  simp only [setDate, if_neg (by decide : ¬ (Fault.none = Fault.atLedgerInsert)),
    if_neg (by decide : ¬ (Fault.none = Fault.atCommit))]
  rw [show (if t.transaction_date.isNone then
      { t with transaction_date := some now } else t) = setDate t now from rfl,
    insertTransaction_setDate s t now hq]
  dsimp only
  rw [applyProjection_ok s t now a]
  rfl

theorem record_transaction_invalid (c : Conn) (t : InventoryTransaction)
    (now : Nat) (fault : Fault)
    (htype : lookupType c.current t.transaction_type_id = none) :
    record_transaction c t now fault =
      (rollback c, t,
        Except.error (DBError.invalidTransactionType t.transaction_type_id)) := by
  unfold record_transaction
  rw [htype]

theorem record_transaction_nonpos (c : Conn) (t : InventoryTransaction)
    (now : Nat) {a : Int}
    (htype : lookupType c.current t.transaction_type_id = some a)
    (hq : t.quantity ≤ 0) :
    record_transaction c t now Fault.none =
      (rollback c, setDate t now, Except.error DBError.validationError) := by
  unfold record_transaction
  rw [htype]
  simp only [setDate, if_neg (by decide : ¬ (Fault.none = Fault.atLedgerInsert))]
  rw [show (if t.transaction_date.isNone then
      { t with transaction_date := some now } else t) = setDate t now from rfl]
  unfold insertTransaction
  rw [setDate_quantity, if_pos hq]

theorem postState_transactions (s : DBState) (t : InventoryTransaction)
    (now : Nat) (a : Int) :
    (postState s t now a).transactions =
      s.transactions ++ [newLedgerRow s t now] := by
  unfold postState
  by_cases ha : a = 0
  · simp [ha, ledgerAppend]
  · rw [if_pos ha]
    cases h : findInventory s t.product_id t.location_id <;> simp [ledgerAppend]

theorem postState_transaction_types (s : DBState) (t : InventoryTransaction)
    (now : Nat) (a : Int) :
    (postState s t now a).transaction_types = s.transaction_types := by
  unfold postState
  by_cases ha : a = 0
  · simp [ha, ledgerAppend]
  · rw [if_pos ha]
    cases h : findInventory s t.product_id t.location_id <;> simp [ledgerAppend]

theorem postState_next_tid (s : DBState) (t : InventoryTransaction)
    (now : Nat) (a : Int) :
    (postState s t now a).next_transaction_id = s.next_transaction_id + 1 := by
  unfold postState
  by_cases ha : a = 0
  · simp [ha, ledgerAppend]
  · rw [if_pos ha]
    cases h : findInventory s t.product_id t.location_id <;> simp [ledgerAppend]

theorem pairMatch_update (p l tp tl : Nat) (q : Int) (x : InventoryRow) :
    pairMatch p l (if pairMatch tp tl x then { x with quantity := q } else x) =
      pairMatch p l x := by
  split <;> rfl

theorem filter_map_update (p l tp tl : Nat) (q : Int)
    (xs : List InventoryRow) :
    (xs.map (fun x =>
        if pairMatch tp tl x then { x with quantity := q } else x)).filter
      (pairMatch p l) =
    (xs.filter (pairMatch p l)).map (fun x =>
        if pairMatch tp tl x then { x with quantity := q } else x) := by
  rw [List.filter_map]
  have hcomp : (pairMatch p l ∘ fun x =>
      if pairMatch tp tl x then { x with quantity := q } else x) =
      pairMatch p l := by
    funext x
    exact pairMatch_update p l tp tl q x
  rw [hcomp]

theorem get_product_quantity_postState (s : DBState) (t : InventoryTransaction)
    (now : Nat) (a : Int) (p l : Nat) :
    get_product_quantity (postState s t now a) p l =
      get_product_quantity s p l +
        (if p = t.product_id ∧ l = t.location_id then t.quantity * a else 0) := by
  unfold postState
  by_cases ha : a = 0
  · rw [if_neg (by simp [ha])]
    rw [show get_product_quantity (ledgerAppend s t now) p l =
      get_product_quantity s p l from rfl]
    subst ha
    split <;> simp
  · rw [if_pos ha]
    cases hf : findInventory s t.product_id t.location_id with
    | some r =>
      unfold get_product_quantity
      dsimp only
      rw [show (ledgerAppend s t now).inventory = s.inventory from rfl,
        filter_map_update p l t.product_id t.location_id
          (r.quantity + t.quantity * a) s.inventory]
      unfold findInventory at hf
      by_cases hpl : p = t.product_id ∧ l = t.location_id
      · obtain ⟨hp, hl⟩ := hpl
        subst hp; subst hl
        have hhead : (s.inventory.filter
            (pairMatch t.product_id t.location_id)).head? = some r := by
          rw [← find?_eq_head?_filter]; exact hf
        have hr : pairMatch t.product_id t.location_id r = true :=
          List.find?_some hf
        cases hflt : s.inventory.filter (pairMatch t.product_id t.location_id) with
        | nil => rw [hflt] at hhead; exact absurd hhead (by simp)
        | cons x rest =>
          rw [hflt] at hhead
          have hx : x = r := by simpa using hhead
          subst hx
          simp [hr]
      · have hid : ∀ x ∈ s.inventory.filter (pairMatch p l),
            (if pairMatch t.product_id t.location_id x then
              { x with quantity := r.quantity + t.quantity * a } else x) = id x := by
          intro x hx
          have hplx := (pairMatch_iff).mp (List.mem_filter.mp hx).2
          rw [if_neg, id]
          intro hcon
          have h2 := (pairMatch_iff).mp hcon
          exact hpl ⟨hplx.1.symm.trans h2.1, hplx.2.symm.trans h2.2⟩
        rw [List.map_congr_left hid, List.map_id, if_neg hpl, add_zero]
    | none =>
      unfold get_product_quantity
      dsimp only
      rw [show (ledgerAppend s t now).inventory = s.inventory from rfl,
        List.filter_append]
      unfold findInventory at hf
      have hnil : s.inventory.filter (pairMatch t.product_id t.location_id) = [] :=
        List.filter_eq_nil_iff.mpr (fun x hx => List.find?_eq_none.mp hf x hx)
      by_cases hpl : p = t.product_id ∧ l = t.location_id
      · obtain ⟨hp, hl⟩ := hpl
        subst hp; subst hl
        rw [hnil]
        simp [pairMatch]
      · have hrow : pairMatch p l
            { inventory_id := (ledgerAppend s t now).next_inventory_id
              product_id := t.product_id
              location_id := t.location_id
              quantity := t.quantity * a
              last_counted_at := none } = false := by
          rw [Bool.eq_false_iff]
          intro hcon
          have h2 := (pairMatch_iff).mp hcon
          exact hpl ⟨h2.1.symm, h2.2.symm⟩
        simp only [List.filter_cons, hrow, Bool.false_eq_true,
          not_false_eq_true, if_neg, List.filter_nil, List.append_nil]
        rw [if_neg hpl, add_zero]

theorem postState_inventory_zero (s : DBState) (t : InventoryTransaction)
    (now : Nat) :
    (postState s t now 0).inventory = s.inventory := by
  unfold postState
  rw [if_neg (by simp)]
  rfl

theorem postState_filter_other (s : DBState) (t : InventoryTransaction)
    (now : Nat) (a : Int) (p l : Nat)
    (hpl : ¬(p = t.product_id ∧ l = t.location_id)) :
    (postState s t now a).inventory.filter (pairMatch p l) =
      s.inventory.filter (pairMatch p l) := by
  unfold postState
  by_cases ha : a = 0
  · rw [if_neg (by simp [ha])]
    rfl
  · rw [if_pos ha]
    cases hf : findInventory s t.product_id t.location_id with
    | some r =>
      dsimp only
      rw [show (ledgerAppend s t now).inventory = s.inventory from rfl,
        filter_map_update p l t.product_id t.location_id
          (r.quantity + t.quantity * a) s.inventory]
      have hid : ∀ x ∈ s.inventory.filter (pairMatch p l),
          (if pairMatch t.product_id t.location_id x then
            { x with quantity := r.quantity + t.quantity * a } else x) = id x := by
        intro x hx
        have hplx := (pairMatch_iff).mp (List.mem_filter.mp hx).2
        rw [if_neg, id]
        intro hcon
        have h2 := (pairMatch_iff).mp hcon
        exact hpl ⟨hplx.1.symm.trans h2.1, hplx.2.symm.trans h2.2⟩
      rw [List.map_congr_left hid, List.map_id]
    | none =>
      dsimp only
      rw [show (ledgerAppend s t now).inventory = s.inventory from rfl,
        List.filter_append]
      have hrow : pairMatch p l
          { inventory_id := (ledgerAppend s t now).next_inventory_id
            product_id := t.product_id
            location_id := t.location_id
            quantity := t.quantity * a
            last_counted_at := none } = false := by
        rw [Bool.eq_false_iff]
        intro hcon
        have h2 := (pairMatch_iff).mp hcon
        exact hpl ⟨h2.1.symm, h2.2.symm⟩
      simp only [List.filter_cons, hrow, Bool.false_eq_true,
        not_false_eq_true, if_neg, List.filter_nil, List.append_nil]

theorem map_update_of_find_unique (tp tl : Nat) (q : Int) :
    ∀ (xs : List InventoryRow) (r : InventoryRow),
      xs.find? (pairMatch tp tl) = some r → uniquePairs xs →
      ∃ l1 l2, xs = l1 ++ r :: l2 ∧
        xs.map (fun x =>
          if pairMatch tp tl x then { x with quantity := q } else x) =
          l1 ++ { r with quantity := q } :: l2
  | [], r, hfind, _ => by exact absurd hfind (by simp)
  | x :: xs, r, hfind, huniq => by
    by_cases hx : pairMatch tp tl x
    · rw [List.find?_cons_of_pos _ hx] at hfind
      have hxr : x = r := by simpa using hfind
      subst hxr
      refine ⟨[], xs, by simp, ?_⟩
      have hxm := (pairMatch_iff).mp hx
      have hrest : ∀ y ∈ xs,
          (if pairMatch tp tl y then { y with quantity := q } else y) = id y := by
        intro y hy
        have hdiff := (List.pairwise_cons.mp huniq).1 y hy
        rw [if_neg, id]
        intro hcon
        have h2 := (pairMatch_iff).mp hcon
        rcases hdiff with hd | hd
        · exact hd (hxm.1.trans h2.1.symm)
        · exact hd (hxm.2.trans h2.2.symm)
      simp only [List.map_cons, if_pos hx]
      rw [List.map_congr_left hrest, List.map_id, List.nil_append]
    · rw [List.find?_cons_of_neg _ hx] at hfind
      obtain ⟨l1, l2, hsplit, hmap⟩ :=
        map_update_of_find_unique tp tl q xs r hfind
          (List.pairwise_cons.mp huniq).2
      refine ⟨x :: l1, l2, by rw [List.cons_append, hsplit], ?_⟩
      simp only [List.map_cons, if_neg hx, List.cons_append]
      rw [hmap]

theorem postState_inventory_cases (s : DBState) (t : InventoryTransaction)
    (now : Nat) (a : Int) (huniq : uniquePairs s.inventory) :
    (postState s t now a).inventory = s.inventory ∨
    (∃ row, (postState s t now a).inventory = s.inventory ++ [row]) ∨
    (∃ l1 r q l2, s.inventory = l1 ++ r :: l2 ∧
      (postState s t now a).inventory = l1 ++ { r with quantity := q } :: l2) := by
  unfold postState
  by_cases ha : a = 0
  · rw [if_neg (by simp [ha])]
    exact Or.inl rfl
  · rw [if_pos ha]
    cases hf : findInventory s t.product_id t.location_id with
    | some r =>
      unfold findInventory at hf
      obtain ⟨l1, l2, hsplit, hmap⟩ :=
        map_update_of_find_unique t.product_id t.location_id
          (r.quantity + t.quantity * a) s.inventory r hf huniq
      exact Or.inr (Or.inr ⟨l1, r, r.quantity + t.quantity * a, l2, hsplit, hmap⟩)
    | none =>
      exact Or.inr (Or.inl ⟨_, rfl⟩)

theorem runRecord_ok_inv (s : DBState) (t : InventoryTransaction) (now : Nat)
    {c : Conn} {t' : InventoryTransaction} {tid : Nat}
    (h : runRecord s t now = (c, t', Except.ok tid)) :
    ∃ a, lookupType s t.transaction_type_id = some a ∧ 0 < t.quantity ∧
      c = ⟨postState s t now a, postState s t now a⟩ ∧ t' = setDate t now ∧
      tid = s.next_transaction_id := by
  unfold runRecord at h
  cases hl : lookupType s t.transaction_type_id with
  | none =>
    rw [record_transaction_invalid ⟨s, s⟩ t now Fault.none hl] at h
    exact absurd h (by simp)
  | some a =>
    by_cases hq : 0 < t.quantity
    · rw [record_transaction_ok s t now hl hq] at h
      simp only [Prod.mk.injEq, Except.ok.injEq] at h
      exact ⟨a, rfl, hq, h.1.symm, h.2.1.symm, h.2.2.symm⟩
    · rw [record_transaction_nonpos ⟨s, s⟩ t now hl (not_lt.mp hq)] at h
      exact absurd h (by simp)

theorem foldSpec_congr {s s' : DBState}
    (h : s.transaction_types = s'.transaction_types) (pid lid : Nat)
    (calls : List (InventoryTransaction × Nat)) :
    foldSpec s pid lid calls = foldSpec s' pid lid calls := by
  unfold foldSpec effectOf
  have hl : ∀ id, lookupType s id = lookupType s' id := lookupType_congr h
  simp [hl]

theorem runAll_getQ :
    ∀ (calls : List (InventoryTransaction × Nat)) (s s' : DBState),
      runAll s calls = some s' → ∀ pid lid,
        get_product_quantity s' pid lid =
          get_product_quantity s pid lid + foldSpec s pid lid calls
  | [], s, s', h, pid, lid => by
    unfold runAll at h
    obtain rfl : s = s' := by simpa using h
    simp [foldSpec]
  | (t, now) :: rest, s, s', h, pid, lid => by
    unfold runAll at h
    rcases hr : runRecord s t now with ⟨c, tobj, res⟩
    rw [hr] at h
    cases res with
    | error e => exact absurd h (by simp)
    | ok tid =>
      obtain ⟨a, hl, hq, hc, -, -⟩ := runRecord_ok_inv s t now hr
      subst hc
      dsimp only at h
      have ih := runAll_getQ rest (postState s t now a) s' h pid lid
      rw [ih, get_product_quantity_postState,
        foldSpec_congr (postState_transaction_types s t now a) pid lid rest]
      have hcons : foldSpec s pid lid ((t, now) :: rest) =
          (if pid = t.product_id ∧ lid = t.location_id
            then t.quantity * a else 0) + foldSpec s pid lid rest := by
        unfold foldSpec
        rw [List.map_cons, List.sum_cons]
        congr 2
        simp [effectOf, hl]
      rw [hcons, ← add_assoc]

theorem record_transaction_committed_or_rolled_back (c : Conn)
    (t : InventoryTransaction) (now : Nat) (fault : Fault) :
    (record_transaction c t now fault).1 = rollback c ∨
    ∃ tid, (record_transaction c t now fault).2.2 = Except.ok tid := by
  unfold record_transaction
  cases hl : lookupType c.current t.transaction_type_id with
  | none => exact Or.inl rfl
  | some a =>
    dsimp only
    by_cases hf1 : fault = Fault.atLedgerInsert
    · simp only [if_pos hf1]
      exact Or.inl trivial
    · simp only [if_neg hf1]
      cases hi : insertTransaction c.current
          (if t.transaction_date.isNone then
            { t with transaction_date := some now } else t) with
      | error e2 => exact Or.inl rfl
      | ok pr =>
        obtain ⟨cur1, tid⟩ := pr
        dsimp only
        cases hap : applyProjection cur1
            (if t.transaction_date.isNone then
              { t with transaction_date := some now } else t) a fault with
        | error e3 => exact Or.inl rfl
        | ok cur2 =>
          dsimp only
          by_cases hc : fault = Fault.atCommit
          · simp only [if_pos hc]
            exact Or.inl rfl
          · simp only [if_neg hc]
            exact Or.inr ⟨tid, rfl⟩

/-! ## The claims -/

/-- Claim C1 (confirmed): for every sequence of successful
`record_transaction` calls replayed from an empty store, the quantity
`get_product_quantity` reports for a `(product_id, location_id)` pair equals
the fold over those calls of `quantity * affects_inventory` of their
transaction types, with no floor at zero (the sum is an unrestricted
integer). -/
theorem claim_ledger_projection_fold (s0 : DBState)
    (calls : List (InventoryTransaction × Nat)) (s' : DBState) (pid lid : Nat)
    (hledger : s0.transactions = []) (hinv : s0.inventory = [])
    (hrun : runAll s0 calls = some s') :
    get_product_quantity s' pid lid = foldSpec s0 pid lid calls := by
  rw [runAll_getQ calls s0 s' hrun pid lid]
  have h0 : get_product_quantity s0 pid lid = 0 := by
    unfold get_product_quantity
    rw [hinv]
    rfl
  rw [h0, zero_add]

theorem claim_ledger_projection_fold_witness :
    emptyStore.transactions = [] ∧ emptyStore.inventory = [] ∧
    runAll emptyStore demoCalls = some demoStore ∧
    get_product_quantity demoStore 1 1 = foldSpec emptyStore 1 1 demoCalls :=
  ⟨rfl, rfl, by decide,
    claim_ledger_projection_fold emptyStore demoCalls demoStore 1 1 rfl rfl
      (by decide)⟩

/-- Claim C2 (confirmed): whenever `record_transaction` fails — at the
ledger insert, the projection read, the projection update or insert, or the
commit — the exception propagates (the caller receives no transaction id)
and both the committed and the current state of the connection are exactly
the pre-call state: the ledger append and the projection update are rolled
back together. -/
theorem claim_atomic_rollback (s : DBState) (t : InventoryTransaction)
    (now : Nat) (fault : Fault) (e : DBError)
    (hfail : (record_transaction ⟨s, s⟩ t now fault).2.2 = Except.error e) :
    (record_transaction ⟨s, s⟩ t now fault).1 = ⟨s, s⟩ := by
  rcases record_transaction_committed_or_rolled_back ⟨s, s⟩ t now fault with
    h | ⟨tid, hok⟩
  · rw [h]
    rfl
  · rw [hok] at hfail
    exact absurd hfail (by simp)

theorem claim_atomic_rollback_witness :
    (record_transaction ⟨emptyStore, emptyStore⟩ purchase10 7
        Fault.atCommit).2.2 = Except.error DBError.storageFailure ∧
    (record_transaction ⟨emptyStore, emptyStore⟩ purchase10 7
        Fault.atCommit).1 = ⟨emptyStore, emptyStore⟩ :=
  ⟨by decide, claim_atomic_rollback emptyStore purchase10 7 Fault.atCommit
    DBError.storageFailure (by decide)⟩

/-- Claim C3 (confirmed): a candidate transaction whose type id is not in
the registry is rejected with `InvalidTransactionType` before any durable
write: the result carries the error, the caller's object is untouched, and
both relations are byte-for-byte the pre-call state. -/
theorem claim_invalid_type_rejected (s : DBState) (t : InventoryTransaction)
    (now : Nat) (fault : Fault)
    (htype : lookupType s t.transaction_type_id = none) :
    record_transaction ⟨s, s⟩ t now fault =
      (⟨s, s⟩, t,
        Except.error (DBError.invalidTransactionType t.transaction_type_id)) := by
  rw [record_transaction_invalid ⟨s, s⟩ t now fault htype]
  rfl

theorem claim_invalid_type_rejected_witness :
    lookupType emptyStore 99 = none ∧
    record_transaction ⟨emptyStore, emptyStore⟩
        { purchase10 with transaction_type_id := 99 } 7 Fault.none =
      (⟨emptyStore, emptyStore⟩, { purchase10 with transaction_type_id := 99 },
        Except.error (DBError.invalidTransactionType 99)) :=
  ⟨by decide, claim_invalid_type_rejected emptyStore
    { purchase10 with transaction_type_id := 99 } 7 Fault.none (by decide)⟩

/-- Claim C4 (confirmed, with the quantity constraint modelled from the
spec: it lives in `inventory_schema.sql`, not under `src/`): a candidate
transaction with `quantity <= 0` is rejected with `ValidationError` and
causes no state change — no ledger entry is appended and no stock row is
created or modified. -/
theorem claim_nonpositive_quantity_rejected (s : DBState)
    (t : InventoryTransaction) (now : Nat) (a : Int)
    (htype : lookupType s t.transaction_type_id = some a)
    (hq : t.quantity ≤ 0) :
    record_transaction ⟨s, s⟩ t now Fault.none =
      (⟨s, s⟩, setDate t now, Except.error DBError.validationError) := by
  rw [record_transaction_nonpos ⟨s, s⟩ t now htype hq]
  rfl

theorem claim_nonpositive_quantity_rejected_witness :
    lookupType emptyStore 1 = some 1 ∧ (0 : Int) ≤ 0 ∧
    record_transaction ⟨emptyStore, emptyStore⟩
        { purchase10 with quantity := 0 } 7 Fault.none =
      (⟨emptyStore, emptyStore⟩, setDate { purchase10 with quantity := 0 } 7,
        Except.error DBError.validationError) :=
  ⟨by decide, le_refl 0, claim_nonpositive_quantity_rejected emptyStore
    { purchase10 with quantity := 0 } 7 1 (by decide) (by decide)⟩

/-- Claim C5 (code_bug): `update_inventory_quantity` decides between UPDATE
and INSERT by `current_quantity > 0`, not by row existence (its own comments
say "Check if record exists").  At a store whose stock row for the pair
`(1, 1)` exists with quantity 0, the call takes the INSERT branch instead
of overwriting the existing row: with the projection's unique
`(product_id, location_id)` key the INSERT fails and the recount is lost. -/
theorem claim_recount_overwrite_bug :
    (findInventory zeroRowStore 1 1).isSome = true ∧
    get_product_quantity zeroRowStore 1 1 = 0 ∧
    update_inventory_quantity zeroRowStore 1 1 7 Option.none 99 =
      Except.error DBError.uniqueConstraint := by decide

/-- Claim C6 (confirmed): every successful `record_transaction` call appends
exactly one ledger entry; when the effect is 0 the projection is untouched;
stock rows of every other pair are unchanged; and overall the projection is
unchanged, extended by exactly one new row, or has exactly one row's
quantity rewritten. -/
theorem claim_single_append_frame (s : DBState) (t : InventoryTransaction)
    (now : Nat) (a : Int)
    (htype : lookupType s t.transaction_type_id = some a)
    (hq : 0 < t.quantity) (huniq : uniquePairs s.inventory) :
    ∃ s', runRecord s t now =
        (⟨s', s'⟩, setDate t now, Except.ok s.next_transaction_id) ∧
      s'.transactions = s.transactions ++ [newLedgerRow s t now] ∧
      (a = 0 → s'.inventory = s.inventory) ∧
      (∀ p l, ¬(p = t.product_id ∧ l = t.location_id) →
        s'.inventory.filter (pairMatch p l) =
          s.inventory.filter (pairMatch p l)) ∧
      (s'.inventory = s.inventory ∨
        (∃ row, s'.inventory = s.inventory ++ [row]) ∨
        (∃ l1 r q l2, s.inventory = l1 ++ r :: l2 ∧
          s'.inventory = l1 ++ { r with quantity := q } :: l2)) := by
  refine ⟨postState s t now a, record_transaction_ok s t now htype hq,
    postState_transactions s t now a, ?_, ?_,
    postState_inventory_cases s t now a huniq⟩
  · intro ha
    subst ha
    exact postState_inventory_zero s t now
  · intro p l hpl
    exact postState_filter_other s t now a p l hpl

theorem claim_single_append_frame_witness :
    lookupType emptyStore purchase10.transaction_type_id = some 1 ∧
    0 < purchase10.quantity ∧ uniquePairs emptyStore.inventory ∧
    (∃ s', runRecord emptyStore purchase10 7 =
        (⟨s', s'⟩, setDate purchase10 7, Except.ok emptyStore.next_transaction_id) ∧
      s'.transactions = emptyStore.transactions ++ [newLedgerRow emptyStore purchase10 7] ∧
      ((1 : Int) = 0 → s'.inventory = emptyStore.inventory) ∧
      (∀ p l, ¬(p = purchase10.product_id ∧ l = purchase10.location_id) →
        s'.inventory.filter (pairMatch p l) =
          emptyStore.inventory.filter (pairMatch p l)) ∧
      (s'.inventory = emptyStore.inventory ∨
        (∃ row, s'.inventory = emptyStore.inventory ++ [row]) ∨
        (∃ l1 r q l2, emptyStore.inventory = l1 ++ r :: l2 ∧
          s'.inventory = l1 ++ { r with quantity := q } :: l2))) :=
  ⟨by decide, by decide, List.Pairwise.nil,
    claim_single_append_frame emptyStore purchase10 7 1 (by decide) (by decide)
      List.Pairwise.nil⟩

/-- Claim C7 (confirmed): `get_product_quantity` returns the quantity of the
stock row for the pair when one exists and 0 otherwise; being a pure
function of the state, it creates no row and modifies nothing. -/
theorem claim_get_quantity_pure_read (s : DBState) (pid lid : Nat) :
    get_product_quantity s pid lid =
      match findInventory s pid lid with
      | some r => r.quantity
      | none => 0 :=
  get_product_quantity_eq_find s pid lid

/-- Claim C9 (confirmed): with Transfer Out bound to effect `-1` and
Transfer In to `+1`, recording an out-transfer of `q` at `A` followed by an
in-transfer of `q` at `B` for the same product succeeds and leaves the sum
of the quantities at `A` and `B` unchanged. -/
theorem claim_transfer_conservation (s : DBState)
    (t1 t2 : InventoryTransaction) (P A B : Nat) (q : Int) (now1 now2 : Nat)
    (hout : lookupType s t1.transaction_type_id = some (-1))
    (hin : lookupType s t2.transaction_type_id = some 1)
    (ht1p : t1.product_id = P) (ht1l : t1.location_id = A)
    (ht1q : t1.quantity = q)
    (ht2p : t2.product_id = P) (ht2l : t2.location_id = B)
    (ht2q : t2.quantity = q)
    (hq : 0 < q) :
    ∃ s1 s2,
      runRecord s t1 now1 =
        (⟨s1, s1⟩, setDate t1 now1, Except.ok s.next_transaction_id) ∧
      runRecord s1 t2 now2 =
        (⟨s2, s2⟩, setDate t2 now2, Except.ok s1.next_transaction_id) ∧
      get_product_quantity s2 P A + get_product_quantity s2 P B =
        get_product_quantity s P A + get_product_quantity s P B := by
  have hq1 : 0 < t1.quantity := ht1q ▸ hq
  have hq2 : 0 < t2.quantity := ht2q ▸ hq
  have hin1 : lookupType (postState s t1 now1 (-1)) t2.transaction_type_id =
      some 1 := by
    rw [lookupType_congr (postState_transaction_types s t1 now1 (-1))
      t2.transaction_type_id]
    exact hin
  refine ⟨postState s t1 now1 (-1),
    postState (postState s t1 now1 (-1)) t2 now2 1,
    record_transaction_ok s t1 now1 hout hq1,
    record_transaction_ok (postState s t1 now1 (-1)) t2 now2 hin1 hq2, ?_⟩
  rw [get_product_quantity_postState, get_product_quantity_postState,
    get_product_quantity_postState, get_product_quantity_postState,
    ht1p, ht1l, ht1q, ht2p, ht2l, ht2q]
  by_cases hAB : A = B
  · subst hAB
    simp
  · simp [hAB, Ne.symm hAB]
    ring

theorem claim_transfer_conservation_witness :
    lookupType emptyStore transferOut3.transaction_type_id = some (-1) ∧
    lookupType emptyStore transferIn3.transaction_type_id = some 1 ∧
    (∃ s1 s2,
      runRecord emptyStore transferOut3 2 =
        (⟨s1, s1⟩, setDate transferOut3 2, Except.ok emptyStore.next_transaction_id) ∧
      runRecord s1 transferIn3 3 =
        (⟨s2, s2⟩, setDate transferIn3 3, Except.ok s1.next_transaction_id) ∧
      get_product_quantity s2 1 1 + get_product_quantity s2 1 2 =
        get_product_quantity emptyStore 1 1 + get_product_quantity emptyStore 1 2) :=
  ⟨by decide, by decide,
    claim_transfer_conservation emptyStore transferOut3 transferIn3 1 1 2 3 2 3
      (by decide) (by decide) rfl rfl rfl rfl rfl rfl (by decide)⟩

/-- Claim C10 (confirmed): when the candidate's `transaction_date` is
`None`, `record_transaction` mutates the caller's object in place, setting
the date to the current time, and that time is what the inserted ledger row
stores; a candidate whose date is already set is stored with that value and
the object comes back unmodified. -/
theorem claim_timestamp_assignment (s : DBState) (t : InventoryTransaction)
    (now : Nat) (a : Int)
    (htype : lookupType s t.transaction_type_id = some a)
    (hq : 0 < t.quantity) :
    (t.transaction_date = Option.none →
      (runRecord s t now).2.1 = { t with transaction_date := some now } ∧
      (runRecord s t now).1.committed.transactions =
        s.transactions ++
          [{ newLedgerRow s t now with transaction_date := now }]) ∧
    (∀ d, t.transaction_date = some d →
      (runRecord s t now).2.1 = t ∧
      (runRecord s t now).1.committed.transactions =
        s.transactions ++
          [{ newLedgerRow s t now with transaction_date := d }]) := by
  have hrun : runRecord s t now =
      (⟨postState s t now a, postState s t now a⟩, setDate t now,
        Except.ok s.next_transaction_id) :=
    record_transaction_ok s t now htype hq
  rw [hrun]
  constructor
  · intro hd
    constructor
    · show setDate t now = _
      unfold setDate
      rw [hd]
      rfl
    · show (postState s t now a).transactions = _
      rw [postState_transactions]
      unfold newLedgerRow
      rw [hd]
      rfl
  · intro d hd
    constructor
    · show setDate t now = t
      unfold setDate
      rw [hd]
      rfl
    · show (postState s t now a).transactions = _
      rw [postState_transactions]
      unfold newLedgerRow
      rw [hd]
      rfl

theorem claim_timestamp_assignment_witness :
    lookupType emptyStore purchase10.transaction_type_id = some 1 ∧
    purchase10.transaction_date = Option.none ∧
    ((purchase10.transaction_date = Option.none →
      (runRecord emptyStore purchase10 7).2.1 =
        { purchase10 with transaction_date := some 7 } ∧
      (runRecord emptyStore purchase10 7).1.committed.transactions =
        emptyStore.transactions ++
          [{ newLedgerRow emptyStore purchase10 7 with transaction_date := 7 }]) ∧
    (∀ d, purchase10.transaction_date = some d →
      (runRecord emptyStore purchase10 7).2.1 = purchase10 ∧
      (runRecord emptyStore purchase10 7).1.committed.transactions =
        emptyStore.transactions ++
          [{ newLedgerRow emptyStore purchase10 7 with transaction_date := d }])) :=
  ⟨by decide, rfl,
    claim_timestamp_assignment emptyStore purchase10 7 1 (by decide) (by decide)⟩

/-- Claim C8 (confirmed): `get_transaction_history` returns rows drawn from
the ledger entries matching the optional product/location/date filters,
ordered descending by transaction date, truncated to at most `limit` rows
(`min limit` of the number of matches), any entry it omits is no newer than
every entry it returns, and the `limit` argument defaults to 100. -/
theorem claim_history_query (s : DBState)
    (product_id location_id start_date end_date : Option Nat) (limit : Nat) :
    (get_transaction_history s product_id location_id start_date end_date
        limit).length =
      min limit ((joinHistory s).filter
        (matchesFilters product_id location_id start_date end_date)).length ∧
    List.Sorted dateDesc
      (get_transaction_history s product_id location_id start_date end_date
        limit) ∧
    (∀ r ∈ get_transaction_history s product_id location_id start_date
        end_date limit,
      r ∈ (joinHistory s).filter
        (matchesFilters product_id location_id start_date end_date)) ∧
    (∀ r ∈ (joinHistory s).filter
        (matchesFilters product_id location_id start_date end_date),
      r ∉ get_transaction_history s product_id location_id start_date
        end_date limit →
      ∀ r2 ∈ get_transaction_history s product_id location_id start_date
          end_date limit,
        r.transaction_date ≤ r2.transaction_date) ∧
    get_transaction_history_default s product_id location_id start_date
        end_date =
      get_transaction_history s product_id location_id start_date end_date
        100 := by
  refine ⟨?_, ?_, ?_, ?_, rfl⟩
  · unfold get_transaction_history
    rw [List.length_take, List.length_insertionSort]
  · unfold get_transaction_history
    exact List.Pairwise.sublist (List.take_sublist _ _)
      (List.sorted_insertionSort dateDesc _)
  · intro r hr
    unfold get_transaction_history at hr
    have h1 := (List.take_sublist _ _).subset hr
    exact (List.mem_insertionSort dateDesc).mp h1
  · intro r hrM hrnot r2 hr2
    unfold get_transaction_history at hrnot hr2
    have hsort : List.Sorted dateDesc
        (List.insertionSort dateDesc ((joinHistory s).filter
          (matchesFilters product_id location_id start_date end_date))) :=
      List.sorted_insertionSort dateDesc _
    have hrL : r ∈ List.insertionSort dateDesc ((joinHistory s).filter
        (matchesFilters product_id location_id start_date end_date)) :=
      (List.mem_insertionSort dateDesc).mpr hrM
    have hsplit := List.take_append_drop limit
      (List.insertionSort dateDesc ((joinHistory s).filter
        (matchesFilters product_id location_id start_date end_date)))
    have hrdrop : r ∈ (List.insertionSort dateDesc ((joinHistory s).filter
        (matchesFilters product_id location_id start_date end_date))).drop
          limit := by
      rcases List.mem_append.mp (by rw [hsplit]; exact hrL) with h | h
      · exact absurd h hrnot
      · exact h
    have hpw : List.Pairwise dateDesc
        ((List.insertionSort dateDesc ((joinHistory s).filter
          (matchesFilters product_id location_id start_date end_date))).take
            limit ++
          (List.insertionSort dateDesc ((joinHistory s).filter
            (matchesFilters product_id location_id start_date
              end_date))).drop limit) := by
      rw [hsplit]
      exact hsort
    exact (List.pairwise_append.mp hpw).2.2 r2 hr2 r hrdrop

theorem claim_history_query_witness :
    (get_transaction_history demoStore (some 1) Option.none Option.none
        Option.none 1).length =
      min 1 ((joinHistory demoStore).filter
        (matchesFilters (some 1) Option.none Option.none Option.none)).length ∧
    List.Sorted dateDesc
      (get_transaction_history demoStore (some 1) Option.none Option.none
        Option.none 1) ∧
    (∀ r ∈ get_transaction_history demoStore (some 1) Option.none Option.none
        Option.none 1,
      r ∈ (joinHistory demoStore).filter
        (matchesFilters (some 1) Option.none Option.none Option.none)) ∧
    (∀ r ∈ (joinHistory demoStore).filter
        (matchesFilters (some 1) Option.none Option.none Option.none),
      r ∉ get_transaction_history demoStore (some 1) Option.none Option.none
        Option.none 1 →
      ∀ r2 ∈ get_transaction_history demoStore (some 1) Option.none
          Option.none Option.none 1,
        r.transaction_date ≤ r2.transaction_date) ∧
    get_transaction_history_default demoStore (some 1) Option.none
        Option.none Option.none =
      get_transaction_history demoStore (some 1) Option.none Option.none
        Option.none 100 :=
  claim_history_query demoStore (some 1) Option.none Option.none Option.none 1

end InventorySystem
